import Mathlib

/-!
Shallow embedding of the Inko VM core: the block-invocation protocol
(`run_block`, `run_block_with_rest`), the bytecode file instructions
(`parse_file`), and the process-worker scheduling loop
(`normal_iteration`, `exclusive_iteration`, `enter_exclusive_mode`).

Definitions are translated from:
  src/vm/src/vm/instructions/code_execution.rs
  src/vm/src/block.rs
  src/vm/src/scheduler/process_worker.rs
  src/src/instruction.rs

Components whose sources are not part of this repository slice (Binding,
ExecutionContext, Process, Queue, PoolState, BytecodeFileRegistry) are
modelled from the specification, as marked in their doc comments.
-/

namespace Inko

/-- CompiledCode, per the data model: name, arity, required-arity, rest
flag, local count (the instruction stream is irrelevant to the claims). -/
structure CompiledCode where
  name : String
  arguments : Nat
  required_arguments : Nat
  rest_argument : Bool
  locals : Nat
  deriving Repr, DecidableEq

/-- Block, from src/vm/src/block.rs: a CompiledCode combined with the
binding of the scope the block was created in, plus a global scope
reference. Bindings are reference counted (RcBinding), modelled here as
indices into a per-process binding heap so that reference sharing is
observable. -/
structure Block where
  code : CompiledCode
  binding : Nat
  global_scope : Nat
  deriving Repr, DecidableEq

def Block.new (code : CompiledCode) (binding : Nat) (global_scope : Nat) : Block :=
  { code := code, binding := binding, global_scope := global_scope }

def Block.arguments_count (b : Block) : Nat :=
  b.code.arguments

def Block.required_arguments_count (b : Block) : Nat :=
  b.code.required_arguments

def Block.locals_count (b : Block) : Nat :=
  b.code.locals

def Block.has_rest_argument (b : Block) : Bool :=
  b.code.rest_argument

def Block.block_name (b : Block) : String :=
  b.code.name

/-- An object pointer: only the object kinds the embedded instructions
inspect are distinguished (blocks, strings, everything else opaque). -/
inductive ObjectPointer where
  | block (b : Block)
  | str (s : String)
  | obj (n : Nat)
  deriving Repr, DecidableEq

/-- ObjectPointer.block_value, failing when the object is not a Block. -/
def ObjectPointer.block_value : ObjectPointer → Except String Block
  | .block b => .ok b
  | _ => .error "ObjectValue::Block"

/-- ObjectPointer.string_value, failing when the object is not a string. -/
def ObjectPointer.string_value : ObjectPointer → Except String String
  | .str s => .ok s
  | _ => .error "ObjectValue::String"

/-- Modelled from the spec: a Binding is a mutable local-variable frame
(ordered local slots); the parent link is irrelevant to the claims.
The source file binding.rs is not part of this repository slice. -/
structure BindingData where
  locals : List ObjectPointer
  deriving Repr, DecidableEq

/-- Modelled from the spec: an ExecutionContext is one call-stack frame:
code ref, binding, return register id (the parent link is represented by
the position in the process call-stack list). The source file
execution_context.rs is not part of this repository slice;
`with_binding` stores the binding reference it is given. -/
structure ExecutionContext where
  code : CompiledCode
  binding : Nat
  return_register : Option Nat
  deriving Repr, DecidableEq

def ExecutionContext.with_binding (binding : Nat) (code : CompiledCode)
    (return_register : Option Nat) : ExecutionContext :=
  { code := code, binding := binding, return_register := return_register }

/-- Instruction, from src/src/instruction.rs: argument list plus source
position (the instruction type does not affect the handlers embedded
here). -/
structure Instruction where
  arguments : List Nat
  line : Nat
  column : Nat
  deriving Repr, DecidableEq

/-- Instruction.arg: fetch the nth instruction argument, an error when it
is absent. -/
def Instruction.arg (ins : Instruction) (index : Nat) : Except String Nat :=
  match ins.arguments.get? index with
  | some value => .ok value
  | none => .error "undefined instruction argument"

/-- Modelled from the spec: a Process owns its call stack (a chain of
ExecutionContexts), a register file, the recorded source line, and (to
make RcBinding sharing observable) the heap of bindings its blocks and
contexts reference. The source file process.rs is not part of this
repository slice. -/
structure Process where
  registers : Nat → Option ObjectPointer
  stack : List ExecutionContext
  line : Nat
  bindings : List BindingData

/-- Modelled from the spec: advance_line records the instruction's source
line on the process. -/
def Process.advance_line (p : Process) (line : Nat) : Process :=
  { p with line := line }

/-- Modelled from the spec: get_register reads a register, an error when
it was never written. -/
def Process.get_register (p : Process) (register : Nat) : Except String ObjectPointer :=
  match p.registers register with
  | some value => .ok value
  | none => .error "undefined register"

def Process.set_register (p : Process) (register : Nat) (value : ObjectPointer) : Process :=
  { p with registers := fun n => if n = register then some value else p.registers n }

def Process.push_context (p : Process) (context : ExecutionContext) : Process :=
  { p with stack := context :: p.stack }

/-- Mutating a shared binding: append one value to the locals of the
binding heap entry `bid` (Vec::push on the RcBinding's locals). -/
def Process.push_local (p : Process) (bid : Nat) (value : ObjectPointer) : Process :=
  match p.bindings.get? bid with
  | some b => { p with bindings := p.bindings.set bid { locals := b.locals ++ [value] } }
  | none => p

/-- The locals of the binding heap entry `bid` (empty when the reference
is dangling, which never happens for references produced by the embedded
operations). -/
def Process.binding_locals (p : Process) (bid : Nat) : List ObjectPointer :=
  ((p.bindings.get? bid).getD { locals := [] }).locals

/-- Allocate a fresh empty Binding (Binding::new) in the binding heap,
returning its reference. -/
def Process.new_binding (p : Process) : Process × Nat :=
  ({ p with bindings := p.bindings ++ [{ locals := [] }] }, p.bindings.length)

/-- The control-transfer Action returned by instruction handlers. Only
the variants the embedded handlers produce are listed. -/
inductive Action where
  | None
  | EnterContext
  deriving Repr, DecidableEq

/-- The "too many arguments" ArityError message built by run_block. -/
def too_many_arguments_message (name : String) (total given : Nat) : String :=
  name ++ " accepts up to " ++ toString total ++ " arguments, but " ++
    toString given ++ " arguments were given"

/-- The "too few arguments" ArityError message built by run_block. -/
def too_few_arguments_message (name : String) (required given : Nat) : String :=
  name ++ " requires " ++ toString required ++ " arguments, but " ++
    toString given ++ " arguments were given"

/-- The argument-pushing loop of run_block: for `count` instruction
arguments starting at index `start`, read each argument register and push
its value onto the locals of binding `bid`. On a failed register read the
locals pushed so far remain (the binding is shared mutable state). -/
def push_arguments (p : Process) (ins : Instruction) (start count bid : Nat) :
    Process × Except String Unit :=
  match count with
  | 0 => (p, .ok ())
  | n + 1 =>
    match ins.arg start with
    | .error e => (p, .error e)
    | .ok register =>
      match p.get_register register with
      | .error e => (p, .error e)
      | .ok value => push_arguments (p.push_local bid value) ins (start + 1) n bid

/-- run_block, from src/vm/src/vm/instructions/code_execution.rs lines
23-74: advance the line, read the block register, validate arity (too
many, then too few), build an ExecutionContext sharing the block's
binding, push the argument values onto that binding's locals, push the
context and return EnterContext. Returns the final process state together
with the instruction result. -/
def run_block (p0 : Process) (ins : Instruction) : Process × Except String Action :=
  let p := p0.advance_line ins.line
  match ins.arg 0 with
  | .error e => (p, .error e)
  | .ok register =>
    match ins.arg 1 with
    | .error e => (p, .error e)
    | .ok block_register =>
      match p.get_register block_register with
      | .error e => (p, .error e)
      | .ok block_ptr =>
        match block_ptr.block_value with
        | .error e => (p, .error e)
        | .ok block_val =>
          let arg_offset := 2
          let arg_count := ins.arguments.length - arg_offset
          let tot_args := block_val.arguments_count
          let req_args := block_val.required_arguments_count
          if arg_count > tot_args then
            (p, .error (too_many_arguments_message block_val.block_name tot_args arg_count))
          else if arg_count < req_args then
            (p, .error (too_few_arguments_message block_val.block_name req_args arg_count))
          else
            let context := ExecutionContext.with_binding block_val.binding
              block_val.code (some register)
            match push_arguments p ins arg_offset arg_count context.binding with
            | (p2, .error e) => (p2, .error e)
            | (p2, .ok _) => (p2.push_context context, .ok Action.EnterContext)

/-- The sequence of register values the argument-pushing loop of
run_block reads: for `count` instruction arguments starting at index
`start`, the argument registers' values in order. -/
def get_arg_values (p : Process) (ins : Instruction) (start count : Nat) :
    Except String (List ObjectPointer) :=
  match count with
  | 0 => .ok []
  | n + 1 =>
    match ins.arg start with
    | .error e => .error e
    | .ok register =>
      match p.get_register register with
      | .error e => .error e
      | .ok value =>
        match get_arg_values p ins (start + 1) n with
        | .error e => .error e
        | .ok values => .ok (value :: values)

/-- run_block_with_rest, from src/vm/src/vm/instructions/code_execution.rs
lines 86-130: the body is entirely commented out ("TODO: implement"); the
handler ignores the process and instruction and returns EnterContext. -/
def run_block_with_rest (p : Process) (_ins : Instruction) : Process × Except String Action :=
  (p, .ok Action.EnterContext)

/-! ### BytecodeFileRegistry and parse_file -/

/-- Modelled from the spec: the lock-guarded path to CompiledCode cache.
The source file for the registry is not part of this repository slice.
`parsed` is the cache; `parse_result` is the underlying bytecode parse
routine (I/O error or malformed bytecode yields a LoadError message). -/
structure FileRegistry where
  parsed : List (String × CompiledCode)
  parse_result : String → Except String CompiledCode

/-- Modelled from the spec: get_or_set returns the cached CompiledCode
for the path if present; otherwise it parses the bytecode file, inserts
it and returns it; parse failure yields a LoadError and leaves the
registry unmodified for that path. -/
def FileRegistry.get_or_set (r : FileRegistry) (path : String) :
    FileRegistry × Except String CompiledCode :=
  match r.parsed.lookup path with
  | some code => (r, .ok code)
  | none =>
    match r.parse_result path with
    | .ok code => ({ r with parsed := r.parsed ++ [(path, code)] }, .ok code)
    | .error e => (r, .error e)

/-- The machine state the embedded instructions touch: the bytecode file
registry (the rest of the Machine is irrelevant to the claims). -/
structure Machine where
  file_registry : FileRegistry

/-- parse_file, from src/vm/src/vm/instructions/code_execution.rs lines
141-161: read the path register, call get_or_set on the file registry; on
success allocate a Block pairing the code with a fresh empty Binding and
write it to the destination register; on failure return the LoadError
message, leaving the registers untouched. -/
def parse_file (m : Machine) (p : Process) (ins : Instruction) :
    (Machine × Process) × Except String Action :=
  match ins.arg 0 with
  | .error e => ((m, p), .error e)
  | .ok register =>
    match ins.arg 1 with
    | .error e => ((m, p), .error e)
    | .ok path_register =>
      match p.get_register path_register with
      | .error e => ((m, p), .error e)
      | .ok path_ptr =>
        match path_ptr.string_value with
        | .error e => ((m, p), .error e)
        | .ok path_str =>
          let (registry2, result) := m.file_registry.get_or_set path_str
          let m2 : Machine := { file_registry := registry2 }
          match result with
          | .error e => ((m2, p), .error e)
          | .ok code =>
            let (p1, bid) := p.new_binding
            let block := Block.new code bid 0
            let block_ptr := ObjectPointer.block block
            ((m2, p1.set_register register block_ptr), .ok Action.None)

/-! ### Scheduler: Queue, PoolState, ProcessWorker -/

/-- A job identifier (stands for an RcProcess). -/
abbrev Job := Nat

/-- Modelled from the spec: a per-worker Queue with an internal
(owner-only) part and an external (multi-producer) inbox. The source file
queue.rs is not part of this repository slice. -/
structure Queue where
  internal : List Job
  external : List Job
  deriving Repr, DecidableEq

/-- Modelled from the spec: the owner pops one job from the internal
part. -/
def Queue.pop (q : Queue) : Option (Job × Queue) :=
  match q.internal with
  | [] => none
  | j :: rest => some (j, { q with internal := rest })

/-- Modelled from the spec: drain the external inbox into the internal
part; the returned Bool reports whether anything arrived. -/
def Queue.move_external_jobs (q : Queue) : Queue × Bool :=
  ({ internal := q.internal ++ q.external, external := [] }, !q.external.isEmpty)

/-- Modelled from the spec: pop exactly one job from the external inbox,
without draining it. -/
def Queue.pop_external_job (q : Queue) : Option (Job × Queue) :=
  match q.external with
  | [] => none
  | j :: rest => some (j, { q with external := rest })

def Queue.has_external_jobs (q : Queue) : Bool :=
  !q.external.isEmpty

def Queue.has_local_jobs (q : Queue) : Bool :=
  !q.internal.isEmpty

/-- The state that a worker is in, from
src/vm/src/scheduler/process_worker.rs. -/
inductive Mode where
  | Normal
  | Exclusive
  deriving Repr, DecidableEq

/-- The slice of scheduler state one ProcessWorker step touches: the
worker's own queue and mode, the other workers' queues, and the pool's
global queue (modelled from the spec's PoolState). `processed` records the
jobs handed to process_job, in order, so that claims about which job a
step processes are statable. -/
structure WorkerState where
  queue : Queue
  others : List Queue
  global : List Job
  mode : Mode
  processed : List Job
  deriving Repr, DecidableEq

/-- Modelled from the spec: PoolState.push_global appends a job to the
pool's global queue. -/
def WorkerState.push_global (w : WorkerState) (job : Job) : WorkerState :=
  { w with global := w.global ++ [job] }

def WorkerState.has_global_jobs (w : WorkerState) : Bool :=
  !w.global.isEmpty

/-- Modelled from the spec: pop one job from the own internal queue and
process it; reports whether there was one. -/
def WorkerState.process_local_jobs (w : WorkerState) : Bool × WorkerState :=
  match w.queue.pop with
  | some (job, q2) =>
    (true, { w with queue := q2, processed := w.processed ++ [job] })
  | none => (false, w)

/-- Modelled from the spec: steal one job from the internal queue of the
first other worker that has one, and process it; never blocks. -/
def steal_first : List Queue → Option (Job × List Queue)
  | [] => none
  | q :: rest =>
    match q.pop with
    | some (job, q2) => some (job, q2 :: rest)
    | none =>
      match steal_first rest with
      | some (job, rest2) => some (job, q :: rest2)
      | none => none

def WorkerState.steal_from_other_queue (w : WorkerState) : Bool × WorkerState :=
  match steal_first w.others with
  | some (job, others2) =>
    (true, { w with others := others2, processed := w.processed ++ [job] })
  | none => (false, w)

/-- Modelled from the spec: steal one job from the pool's global queue
and process it. -/
def WorkerState.steal_from_global_queue (w : WorkerState) : Bool × WorkerState :=
  match w.global with
  | [] => (false, w)
  | job :: rest => (true, { w with global := rest, processed := w.processed ++ [job] })

/-- Modelled from the spec: process_job hands the job to the Machine. -/
def WorkerState.process_job (w : WorkerState) (job : Job) : WorkerState :=
  { w with processed := w.processed ++ [job] }

/-- What one worker-loop iteration did; `parked` means the worker blocked
in park_while because the wake condition (re-checked immediately before
parking) was false, `skipped_park` that the re-check saw the wake
condition already true. -/
inductive StepKind where
  | local
  | stole_other
  | moved_external
  | stole_global
  | popped_external
  | parked
  | skipped_park
  deriving Repr, DecidableEq

/-- The while-pop-push_global loop of enter_exclusive_mode, from
src/vm/src/scheduler/process_worker.rs lines 72-74. -/
def drain_to_global (q : Queue) (global : List Job) : Queue × List Job :=
  match q with
  | ⟨[], ext⟩ => (⟨[], ext⟩, global)
  | ⟨j :: rest, ext⟩ => drain_to_global ⟨rest, ext⟩ (global ++ [j])

/-- enter_exclusive_mode, from src/vm/src/scheduler/process_worker.rs
lines 69-77: move the external jobs into the queue, pop every remaining
job and push it to the global queue, then switch the mode to Exclusive. -/
def enter_exclusive_mode (w : WorkerState) : WorkerState :=
  let q1 := (w.queue.move_external_jobs).1
  let (q2, g2) := drain_to_global q1 w.global
  { w with queue := q2, global := g2, mode := .Exclusive }

/-- leave_exclusive_mode, from src/vm/src/scheduler/process_worker.rs
lines 79-81. -/
def leave_exclusive_mode (w : WorkerState) : WorkerState :=
  { w with mode := .Normal }

/-- normal_iteration, from src/vm/src/scheduler/process_worker.rs lines
84-104: try the own internal queue, then stealing from another worker,
then moving the external jobs in, then the global queue; otherwise park
while no global job and no external job is visible. -/
def normal_iteration (w : WorkerState) : StepKind × WorkerState :=
  match w.process_local_jobs with
  | (true, w1) => (.local, w1)
  | (false, w1) =>
    match w1.steal_from_other_queue with
    | (true, w2) => (.stole_other, w2)
    | (false, w2) =>
      match w2.queue.move_external_jobs with
      | (q3, true) => (.moved_external, { w2 with queue := q3 })
      | (_, false) =>
        match w2.steal_from_global_queue with
        | (true, w3) => (.stole_global, w3)
        | (false, w3) =>
          if !w3.has_global_jobs && !w3.queue.has_external_jobs then
            (.parked, w3)
          else
            (.skipped_park, w3)

/-- exclusive_iteration, from src/vm/src/scheduler/process_worker.rs
lines 107-121: try the own internal queue; else pop exactly one job from
the external inbox and process it; otherwise park while the external
inbox is empty. -/
def exclusive_iteration (w : WorkerState) : StepKind × WorkerState :=
  match w.process_local_jobs with
  | (true, w1) => (.local, w1)
  | (false, w1) =>
    match w1.queue.pop_external_job with
    | some (job, q2) => (.popped_external, WorkerState.process_job { w1 with queue := q2 } job)
    | none =>
      if !w1.queue.has_external_jobs then
        (.parked, w1)
      else
        (.skipped_park, w1)

/-- Written from the spec's words (section 4.2, normal iteration, and the
park condition of section 4.1): tried in order with the first success
short-circuiting: pop one job from the internal queue; steal one job from
another worker's internal queue; drain the external inbox into the
internal queue and retry; steal one job from the pool's global queue;
otherwise park, parking only when the wake condition "global queue
non-empty OR this worker's external inbox non-empty" is false. -/
def normal_iteration_spec (w : WorkerState) : StepKind × WorkerState :=
  match w.queue.internal with
  | job :: rest =>
    (.local, { w with queue := { w.queue with internal := rest },
                      processed := w.processed ++ [job] })
  | [] =>
    match steal_first w.others with
    | some (job, others2) =>
      (.stole_other, { w with others := others2, processed := w.processed ++ [job] })
    | none =>
      if !w.queue.external.isEmpty then
        (.moved_external, { w with queue := { internal := w.queue.internal ++ w.queue.external,
                                              external := [] } })
      else
        match w.global with
        | job :: rest => (.stole_global, { w with global := rest,
                                                  processed := w.processed ++ [job] })
        | [] =>
          if !w.global.isEmpty || !w.queue.external.isEmpty then
            (.skipped_park, w)
          else
            (.parked, w)

/-! ### Concrete inputs used by counterexamples and witnesses -/

/-- A block declaring a rest argument and zero fixed parameters. -/
def c1code : CompiledCode := { name := "b", arguments := 0, required_arguments := 0,
                               rest_argument := true, locals := 0 }

def c1block : Block := { code := c1code, binding := 0, global_scope := 0 }

def c1proc : Process :=
  { registers := fun n => if n = 1 then some (.block c1block)
                          else if n = 2 then some (.obj 7) else none,
    stack := [], line := 0, bindings := [{ locals := [] }] }

def c1ins : Instruction := { arguments := [0, 1, 2], line := 4, column := 0 }

/-- A block whose captured binding already holds one local. -/
def c2code : CompiledCode := { name := "b", arguments := 1, required_arguments := 1,
                               rest_argument := false, locals := 5 }

def c2block : Block := { code := c2code, binding := 0, global_scope := 0 }

def c2proc : Process :=
  { registers := fun n => if n = 1 then some (.block c2block)
                          else if n = 2 then some (.obj 7) else none,
    stack := [], line := 0, bindings := [{ locals := [.obj 9] }] }

def c2ins : Instruction := { arguments := [0, 1, 2], line := 4, column := 0 }

/-- A block with two parameters, one required, over a fresh empty binding. -/
def w2code : CompiledCode := { name := "b", arguments := 2, required_arguments := 1,
                               rest_argument := false, locals := 2 }

def w2block : Block := { code := w2code, binding := 0, global_scope := 0 }

def w2proc : Process :=
  { registers := fun n => if n = 1 then some (.block w2block)
                          else if n = 2 then some (.obj 7)
                          else if n = 3 then some (.obj 8) else none,
    stack := [], line := 0, bindings := [{ locals := [] }] }

def w2ins : Instruction := { arguments := [0, 1, 2, 3], line := 9, column := 0 }

/-- A block requiring two arguments, invoked with one. -/
def w3code : CompiledCode := { name := "b", arguments := 2, required_arguments := 2,
                               rest_argument := false, locals := 2 }

def w3block : Block := { code := w3code, binding := 0, global_scope := 0 }

def w3proc : Process :=
  { registers := fun n => if n = 1 then some (.block w3block)
                          else if n = 2 then some (.obj 7) else none,
    stack := [], line := 0, bindings := [{ locals := [] }] }

def w3ins : Instruction := { arguments := [0, 1, 2], line := 3, column := 0 }

/-- A rest-argument block invoked with two excess arguments. -/
def c4code : CompiledCode := { name := "b", arguments := 0, required_arguments := 0,
                               rest_argument := true, locals := 1 }

def c4block : Block := { code := c4code, binding := 0, global_scope := 0 }

def c4proc : Process :=
  { registers := fun n => if n = 1 then some (.block c4block)
                          else if n = 2 then some (.obj 7)
                          else if n = 3 then some (.obj 8) else none,
    stack := [], line := 0, bindings := [{ locals := [] }] }

def c4ins : Instruction := { arguments := [0, 1, 2, 3], line := 4, column := 0 }

/-- An exclusive worker with an empty internal queue and two pinned jobs. -/
def w7state : WorkerState :=
  { queue := { internal := [], external := [5, 6] }, others := [],
    global := [], mode := .Exclusive, processed := [] }

def w8code : CompiledCode := { name := "m", arguments := 0, required_arguments := 0,
                               rest_argument := false, locals := 0 }

/-- A registry whose parse routine succeeds on every path. -/
def w8registry : FileRegistry := { parsed := [], parse_result := fun _ => .ok w8code }

def w8machine : Machine := { file_registry := w8registry }

/-- A registry whose parse routine fails on every path. -/
def w8failRegistry : FileRegistry :=
  { parsed := [], parse_result := fun _ => .error "LoadError" }

def w8failMachine : Machine := { file_registry := w8failRegistry }

def w8proc : Process :=
  { registers := fun n => if n = 1 then some (.str "a.inko") else none,
    stack := [], line := 0, bindings := [] }

def w8ins : Instruction := { arguments := [0, 1], line := 0, column := 0 }

end Inko

namespace Inko

/-! ### Helper lemmas -/

theorem drain_to_global_eq (internal ext global : List Job) :
    drain_to_global ⟨internal, ext⟩ global = (⟨[], ext⟩, global ++ internal) := by
  induction internal generalizing global with
  | nil => simp [drain_to_global]
  | cons j rest ih => simp [drain_to_global, ih, List.append_assoc]

/-- C5 helper: enter_exclusive_mode fully unfolded. -/
theorem enter_exclusive_mode_eq (w : WorkerState) :
    enter_exclusive_mode w =
      { w with queue := ⟨[], []⟩,
               global := w.global ++ w.queue.internal ++ w.queue.external,
               mode := .Exclusive } := by
  unfold enter_exclusive_mode Queue.move_external_jobs
  simp only [drain_to_global_eq]
  simp [List.append_assoc]

theorem get?_append_length {α : Type} (l : List α) (x : α) :
    (l ++ [x]).get? l.length = some x := by
  induction l with
  | nil => rfl
  | cons a as ih => simp [ih]

theorem get_register_congr (p q : Process) (h : q.registers = p.registers) (r : Nat) :
    q.get_register r = p.get_register r := by
  unfold Process.get_register
  rw [h]

theorem get_arg_values_congr (p q : Process) (ins : Instruction)
    (h : q.registers = p.registers) (start count : Nat) :
    get_arg_values q ins start count = get_arg_values p ins start count := by
  induction count generalizing start with
  | zero => rfl
  | succ n ih =>
    unfold get_arg_values
    cases harg : ins.arg start with
    | error e => simp [harg]
    | ok r =>
      simp only [harg, get_register_congr p q h]
      cases hreg : p.get_register r with
      | error e => simp
      | ok v => simp [ih]

theorem get_arg_values_length (p : Process) (ins : Instruction)
    (start count : Nat) (vals : List ObjectPointer)
    (h : get_arg_values p ins start count = .ok vals) : vals.length = count := by
  induction count generalizing start vals with
  | zero =>
    unfold get_arg_values at h
    simp only [Except.ok.injEq] at h
    simp [← h]
  | succ n ih =>
    unfold get_arg_values at h
    cases harg : ins.arg start with
    | error e => simp [harg] at h
    | ok r =>
      simp only [harg] at h
      cases hreg : p.get_register r with
      | error e => simp [hreg] at h
      | ok v =>
        simp only [hreg] at h
        cases hrec : get_arg_values p ins (start + 1) n with
        | error e => simp [hrec] at h
        | ok vs =>
          simp only [hrec, Except.ok.injEq] at h
          simp [← h, ih _ _ hrec]

theorem push_local_registers (p : Process) (bid : Nat) (v : ObjectPointer) :
    (p.push_local bid v).registers = p.registers := by
  unfold Process.push_local
  cases p.bindings.get? bid <;> rfl

theorem push_local_stack (p : Process) (bid : Nat) (v : ObjectPointer) :
    (p.push_local bid v).stack = p.stack := by
  unfold Process.push_local
  cases p.bindings.get? bid <;> rfl

theorem push_local_line (p : Process) (bid : Nat) (v : ObjectPointer) :
    (p.push_local bid v).line = p.line := by
  unfold Process.push_local
  cases p.bindings.get? bid <;> rfl

theorem push_local_bindings_length (p : Process) (bid : Nat) (v : ObjectPointer) :
    (p.push_local bid v).bindings.length = p.bindings.length := by
  unfold Process.push_local
  cases p.bindings.get? bid <;> simp

theorem push_local_binding_locals_self (p : Process) (bid : Nat) (v : ObjectPointer)
    (h : bid < p.bindings.length) :
    (p.push_local bid v).binding_locals bid = p.binding_locals bid ++ [v] := by
  unfold Process.push_local Process.binding_locals
  have hg : p.bindings.get? bid = some (p.bindings.get ⟨bid, h⟩) := List.get?_eq_get h
  rw [hg]
  simp [List.getElem?_set_self h, List.get?_eq_getElem?, List.getElem?_eq_getElem h]

theorem push_local_binding_locals_other (p : Process) (bid j : Nat) (v : ObjectPointer)
    (hj : j ≠ bid) :
    (p.push_local bid v).bindings.get? j = p.bindings.get? j := by
  unfold Process.push_local
  cases hg : p.bindings.get? bid with
  | none => rfl
  | some b => simp [List.getElem?_set_ne (Ne.symm hj)]

/-- What the argument-pushing loop does when every argument register is
readable: it succeeds, touches nothing but the locals of binding `bid`,
and appends exactly the read values in order. -/
theorem push_arguments_spec (ins : Instruction) (bid : Nat) :
    ∀ (count start : Nat) (p : Process) (vals : List ObjectPointer),
    bid < p.bindings.length →
    get_arg_values p ins start count = .ok vals →
    (push_arguments p ins start count bid).2 = .ok () ∧
    (push_arguments p ins start count bid).1.registers = p.registers ∧
    (push_arguments p ins start count bid).1.stack = p.stack ∧
    (push_arguments p ins start count bid).1.line = p.line ∧
    (push_arguments p ins start count bid).1.bindings.length = p.bindings.length ∧
    (push_arguments p ins start count bid).1.binding_locals bid =
      p.binding_locals bid ++ vals ∧
    (∀ j, j ≠ bid →
      (push_arguments p ins start count bid).1.bindings.get? j = p.bindings.get? j) := by
  intro count
  induction count with
  | zero =>
    intro start p vals hbid hvals
    unfold get_arg_values at hvals
    simp only [Except.ok.injEq] at hvals
    unfold push_arguments
    simp [← hvals]
  | succ n ih =>
    intro start p vals hbid hvals
    unfold get_arg_values at hvals
    cases harg : ins.arg start with
    | error e => simp [harg] at hvals
    | ok r =>
      simp only [harg] at hvals
      cases hreg : p.get_register r with
      | error e => simp [hreg] at hvals
      | ok v =>
        simp only [hreg] at hvals
        cases hrec : get_arg_values p ins (start + 1) n with
        | error e => simp [hrec] at hvals
        | ok vs =>
          simp only [hrec, Except.ok.injEq] at hvals
          have hpush : push_arguments p ins start (n + 1) bid =
              push_arguments (p.push_local bid v) ins (start + 1) n bid := by
            conv_lhs => unfold push_arguments
            simp [harg, hreg]
          have hbid2 : bid < (p.push_local bid v).bindings.length := by
            rw [push_local_bindings_length]; exact hbid
          have hrec2 : get_arg_values (p.push_local bid v) ins (start + 1) n = .ok vs := by
            rw [get_arg_values_congr p _ ins (push_local_registers p bid v)]
            exact hrec
          obtain ⟨ih1, ih2, ih3, ih4, ih5, ih6, ih7⟩ :=
            ih (start + 1) (p.push_local bid v) vs hbid2 hrec2
          rw [hpush]
          refine ⟨ih1, ?_, ?_, ?_, ?_, ?_, ?_⟩
          · rw [ih2, push_local_registers]
          · rw [ih3, push_local_stack]
          · rw [ih4, push_local_line]
          · rw [ih5, push_local_bindings_length]
          · rw [ih6, push_local_binding_locals_self p bid v hbid, ← hvals]
            simp
          · intro j hj
            rw [ih7 j hj, push_local_binding_locals_other p bid j v hj]

end Inko

namespace Inko

/-! ### Claim theorems: scheduler -/

/-- C5: for every ProcessWorker state, after enter_exclusive_mode the
worker's internal queue and external inbox are empty, every job that was
in them has been moved to the pool's global queue (appended after the
existing global jobs, so none is lost or duplicated), and the mode is
Exclusive; leave_exclusive_mode sets the mode back to Normal and has no
other side effects. -/
theorem C5_enter_exclusive_mode_moves_all_jobs (w : WorkerState) :
    (enter_exclusive_mode w).queue.internal = [] ∧
    (enter_exclusive_mode w).queue.external = [] ∧
    (enter_exclusive_mode w).global =
      w.global ++ w.queue.internal ++ w.queue.external ∧
    (enter_exclusive_mode w).mode = Mode.Exclusive ∧
    (enter_exclusive_mode w).others = w.others ∧
    (enter_exclusive_mode w).processed = w.processed ∧
    (∀ v : WorkerState, leave_exclusive_mode v = { v with mode := Mode.Normal }) := by
  rw [enter_exclusive_mode_eq]
  refine ⟨rfl, rfl, rfl, rfl, rfl, rfl, fun v => rfl⟩

/-- C6: in Normal mode one worker iteration equals the specification's
ordered policy: pop from the own internal queue, else steal one job from
another worker's internal queue, else drain the external inbox into the
internal queue (retrying), else steal from the pool's global queue, else
park, parking exactly when the wake condition "global queue non-empty OR
this worker's external inbox non-empty" is false. -/
theorem C6_normal_iteration_follows_spec_order (w : WorkerState) :
    normal_iteration w = normal_iteration_spec w := by
  obtain ⟨⟨intl, ext⟩, others, global, mode, processed⟩ := w
  unfold normal_iteration normal_iteration_spec WorkerState.process_local_jobs
    WorkerState.steal_from_other_queue WorkerState.steal_from_global_queue
    Queue.move_external_jobs Queue.pop WorkerState.has_global_jobs
    Queue.has_external_jobs
  cases intl with
  | cons j rest => simp
  | nil =>
    cases h : steal_first others with
    | some pair => simp [h]
    | none =>
      cases ext with
      | cons e es => simp [h]
      | nil =>
        cases global with
        | cons g gs => simp [h]
        | nil => simp [h]

/-- C7: in Exclusive mode an iteration never drains the external inbox,
never steals from other workers or the global queue, pops exactly one
pinned job from the external inbox (processing it immediately) when the
internal queue is empty, and otherwise parks exactly when the external
inbox is empty. -/
theorem C7_exclusive_iteration_never_drains (w : WorkerState) :
    ((exclusive_iteration w).1 = .local ∨
     (exclusive_iteration w).1 = .popped_external ∨
     (exclusive_iteration w).1 = .parked) ∧
    (exclusive_iteration w).2.others = w.others ∧
    (exclusive_iteration w).2.global = w.global ∧
    (∀ job rest, w.queue.internal = [] → w.queue.external = job :: rest →
      exclusive_iteration w =
        (.popped_external,
         { w with queue := { w.queue with external := rest },
                  processed := w.processed ++ [job] })) ∧
    (w.queue.internal = [] → w.queue.external = [] →
      exclusive_iteration w = (.parked, w)) := by
  obtain ⟨⟨intl, ext⟩, others, global, mode, processed⟩ := w
  unfold exclusive_iteration WorkerState.process_local_jobs
    WorkerState.process_job Queue.pop Queue.pop_external_job
    Queue.has_external_jobs
  cases intl with
  | cons j rest => simp
  | nil =>
    cases ext with
    | cons e es => simp
    | nil => simp

/-- C7 witness: an exclusive worker with no internal jobs and pinned jobs
5 and 6 pops exactly job 5, leaving job 6 pinned. -/
theorem C7_exclusive_iteration_never_drains_witness :
    exclusive_iteration w7state =
      (.popped_external,
       { w7state with queue := { w7state.queue with external := [6] },
                      processed := w7state.processed ++ [5] }) :=
  (C7_exclusive_iteration_never_drains w7state).2.2.2.1 5 [6] rfl rfl

/-- C4: run_block_with_rest is an unimplemented stub: at an invocation of
a rest-parameter block with two excess arguments it returns EnterContext
while leaving the process completely unchanged, so no context is pushed
and no rest local is bound to a sequence of the excess arguments (the
claim, and the handler's own documentation, require a sequence of length
2 in the rest slot). -/
theorem C4_run_block_with_rest_is_a_stub :
    run_block_with_rest c4proc c4ins = (c4proc, .ok Action.EnterContext) ∧
    c4block.has_rest_argument = true ∧
    c4ins.arguments.length - 2 = 2 ∧
    c4proc.stack = [] ∧
    c4proc.binding_locals 0 = [] := by
  refine ⟨rfl, rfl, rfl, rfl, rfl⟩

end Inko

namespace Inko

/-! ### run_block reduction lemmas -/

/-- run_block after the operand lookups succeed: the arity checks, then
the argument-pushing loop on the block's own binding, then the context
push. -/
theorem run_block_eq (proc : Process) (ins : Instruction) (r0 r1 : Nat)
    (ptr : ObjectPointer) (blk : Block)
    (h0 : ins.arg 0 = .ok r0) (h1 : ins.arg 1 = .ok r1)
    (hreg : proc.get_register r1 = .ok ptr) (hblk : ptr.block_value = .ok blk) :
    run_block proc ins =
      (if ins.arguments.length - 2 > blk.code.arguments then
        (proc.advance_line ins.line,
         .error (too_many_arguments_message blk.code.name blk.code.arguments
           (ins.arguments.length - 2)))
      else if ins.arguments.length - 2 < blk.code.required_arguments then
        (proc.advance_line ins.line,
         .error (too_few_arguments_message blk.code.name blk.code.required_arguments
           (ins.arguments.length - 2)))
      else
        match push_arguments (proc.advance_line ins.line) ins 2
            (ins.arguments.length - 2) blk.binding with
        | (p2, .error e) => (p2, .error e)
        | (p2, .ok _) =>
          (p2.push_context (ExecutionContext.with_binding blk.binding blk.code (some r0)),
           .ok Action.EnterContext)) := by
  have hreg2 : (proc.advance_line ins.line).get_register r1 = .ok ptr := hreg
  unfold run_block
  simp only [h0, h1, hreg2, hblk, Block.arguments_count, Block.required_arguments_count,
    Block.block_name, ExecutionContext.with_binding]

/-- run_block on a well-formed successful invocation: EnterContext is
returned, the new context (sharing the block's binding) is pushed, the
argument values are appended onto that binding's locals, and nothing else
changes. -/
theorem run_block_success_spec (proc : Process) (ins : Instruction) (r0 r1 : Nat)
    (ptr : ObjectPointer) (blk : Block) (vals : List ObjectPointer)
    (h0 : ins.arg 0 = .ok r0) (h1 : ins.arg 1 = .ok r1)
    (hreg : proc.get_register r1 = .ok ptr) (hblk : ptr.block_value = .ok blk)
    (hmany : ¬(ins.arguments.length - 2 > blk.code.arguments))
    (hfew : ¬(ins.arguments.length - 2 < blk.code.required_arguments))
    (hbid : blk.binding < proc.bindings.length)
    (hvals : get_arg_values proc ins 2 (ins.arguments.length - 2) = .ok vals) :
    (run_block proc ins).2 = .ok Action.EnterContext ∧
    (run_block proc ins).1.stack =
      ExecutionContext.with_binding blk.binding blk.code (some r0) :: proc.stack ∧
    (run_block proc ins).1.registers = proc.registers ∧
    (run_block proc ins).1.line = ins.line ∧
    (run_block proc ins).1.bindings.length = proc.bindings.length ∧
    (run_block proc ins).1.binding_locals blk.binding =
      proc.binding_locals blk.binding ++ vals ∧
    (∀ j, j ≠ blk.binding →
      (run_block proc ins).1.bindings.get? j = proc.bindings.get? j) := by
  have hbid2 : blk.binding < (proc.advance_line ins.line).bindings.length := hbid
  have hvals2 : get_arg_values (proc.advance_line ins.line) ins 2
      (ins.arguments.length - 2) = .ok vals :=
    (get_arg_values_congr proc (proc.advance_line ins.line) ins rfl 2
      (ins.arguments.length - 2)).trans hvals
  obtain ⟨s1, s2, s3, s4, s5, s6, s7⟩ :=
    push_arguments_spec ins blk.binding (ins.arguments.length - 2) 2
      (proc.advance_line ins.line) vals hbid2 hvals2
  rw [run_block_eq proc ins r0 r1 ptr blk h0 h1 hreg hblk, if_neg hmany, if_neg hfew]
  cases hpa : push_arguments (proc.advance_line ins.line) ins 2
      (ins.arguments.length - 2) blk.binding with
  | mk p2 res =>
    rw [hpa] at s1 s2 s3 s4 s5 s6 s7
    simp only at s1
    subst s1
    refine ⟨rfl, ?_, ?_, ?_, ?_, ?_, ?_⟩
    · show (p2.push_context _).stack = _
      rw [Process.push_context]
      exact congrArg _ s3
    · exact s2
    · exact s4
    · exact s5
    · exact s6
    · exact s7

end Inko

namespace Inko

/-! ### Claim theorems: block invocation -/

/-- C1 counterexample: a block that declares a rest parameter and accepts
0 arguments, invoked with 1 argument, still fails with the "too many
arguments" ArityError, although the claim says a rest parameter makes
given > total acceptable. -/
theorem C1_counterexample_rest_block_still_errors :
    c1block.has_rest_argument = true ∧
    c1ins.arguments.length - 2 > c1block.arguments_count ∧
    (run_block c1proc c1ins).2 =
      .error (too_many_arguments_message "b" 0 1) := by
  refine ⟨rfl, by decide, by rfl⟩

/-- C1 (amended): for every run_block invocation where the supplied
argument count exceeds the block's declared argument count, run_block
fails with the "too many arguments" ArityError, regardless of whether the
block declares a rest parameter (rest handling lives only in the separate
unimplemented run_block_with_rest handler). -/
theorem C1_too_many_arguments_always_error (proc : Process) (ins : Instruction)
    (r0 r1 : Nat) (ptr : ObjectPointer) (blk : Block)
    (h0 : ins.arg 0 = .ok r0) (h1 : ins.arg 1 = .ok r1)
    (hreg : proc.get_register r1 = .ok ptr) (hblk : ptr.block_value = .ok blk)
    (hmany : ins.arguments.length - 2 > blk.code.arguments) :
    run_block proc ins =
      (proc.advance_line ins.line,
       .error (too_many_arguments_message blk.code.name blk.code.arguments
         (ins.arguments.length - 2))) := by
  rw [run_block_eq proc ins r0 r1 ptr blk h0 h1 hreg hblk, if_pos hmany]

/-- C1 witness: the amended claim applied to the concrete rest block. -/
theorem C1_too_many_arguments_always_error_witness :
    run_block c1proc c1ins =
      (c1proc.advance_line c1ins.line,
       .error (too_many_arguments_message c1block.code.name c1block.code.arguments
         (c1ins.arguments.length - 2))) :=
  C1_too_many_arguments_always_error c1proc c1ins 0 1 (.block c1block) c1block
    rfl rfl rfl rfl (by decide)

/-- C2 counterexample: an in-range invocation (given = required = total =
1, no rest) of a block whose captured binding already holds a local.
run_block succeeds, but the pushed context's binding is the block's
captured binding (reference 0), the argument value (obj 7) is appended
after the pre-existing local (obj 9) instead of being copied into the
leading local slot, and the binding is not sized to the code's local
count (2 locals against a declared local count of 5). -/
theorem C2_counterexample_binding_not_fresh :
    c2code.required_arguments ≤ c2ins.arguments.length - 2 ∧
    c2ins.arguments.length - 2 ≤ c2code.arguments ∧
    c2code.rest_argument = false ∧
    (run_block c2proc c2ins).2 = .ok Action.EnterContext ∧
    (run_block c2proc c2ins).1.stack.head?.map ExecutionContext.binding = some 0 ∧
    (run_block c2proc c2ins).1.binding_locals 0 = [.obj 9, .obj 7] ∧
    ((run_block c2proc c2ins).1.binding_locals 0).get? 0 ≠ some (.obj 7) ∧
    ((run_block c2proc c2ins).1.binding_locals 0).length ≠ c2code.locals := by
  refine ⟨by decide, by decide, rfl, rfl, rfl, rfl, by decide, by decide⟩

/-- C2 (amended): for every run_block invocation with required ≤ given ≤
total on a block without a rest parameter, run_block succeeds, creates a
new ExecutionContext referencing the block's code and the block's
captured binding, appends exactly the `given` argument values in order
onto that binding's existing locals (so they occupy the leading slots
exactly when the captured binding starts empty), pushes the context so
the call stack is exactly one frame deeper, leaves the registers
unchanged, and returns the EnterContext action. -/
theorem C2_success_appends_to_captured_binding (proc : Process) (ins : Instruction)
    (r0 r1 : Nat) (ptr : ObjectPointer) (blk : Block) (vals : List ObjectPointer)
    (h0 : ins.arg 0 = .ok r0) (h1 : ins.arg 1 = .ok r1)
    (hreg : proc.get_register r1 = .ok ptr) (hblk : ptr.block_value = .ok blk)
    (hreq : blk.code.required_arguments ≤ ins.arguments.length - 2)
    (htot : ins.arguments.length - 2 ≤ blk.code.arguments)
    (_hrest : blk.code.rest_argument = false)
    (hbid : blk.binding < proc.bindings.length)
    (hvals : get_arg_values proc ins 2 (ins.arguments.length - 2) = .ok vals) :
    (run_block proc ins).2 = .ok Action.EnterContext ∧
    (run_block proc ins).1.stack =
      ExecutionContext.with_binding blk.binding blk.code (some r0) :: proc.stack ∧
    vals.length = ins.arguments.length - 2 ∧
    (run_block proc ins).1.binding_locals blk.binding =
      proc.binding_locals blk.binding ++ vals ∧
    (run_block proc ins).1.registers = proc.registers ∧
    (run_block proc ins).1.line = ins.line := by
  obtain ⟨s1, s2, s3, s4, _, s6, _⟩ :=
    run_block_success_spec proc ins r0 r1 ptr blk vals h0 h1 hreg hblk
      (not_lt.mpr htot) (not_lt.mpr hreq) hbid hvals
  exact ⟨s1, s2, get_arg_values_length proc ins 2 _ vals hvals, s6, s3, s4⟩

/-- C2 witness: the amended claim applied to a two-parameter block over a
fresh empty binding, invoked with two arguments. -/
theorem C2_success_appends_to_captured_binding_witness :
    (run_block w2proc w2ins).2 = .ok Action.EnterContext ∧
    (run_block w2proc w2ins).1.stack =
      [ExecutionContext.with_binding 0 w2code (some 0)] ∧
    (run_block w2proc w2ins).1.binding_locals 0 = [.obj 7, .obj 8] := by
  obtain ⟨s1, s2, _, s4, _, _⟩ :=
    C2_success_appends_to_captured_binding w2proc w2ins 0 1 (.block w2block) w2block
      [.obj 7, .obj 8] rfl rfl rfl rfl (by decide) (by decide) rfl (by decide) rfl
  exact ⟨s1, s2, s4⟩

/-- C3: for every run_block invocation where given < required (on a block
whose required count does not exceed its total count), run_block fails
with the "too few arguments" ArityError; and whenever arity validation
fails — too few or too many — the call stack, the registers and the
bindings are left unchanged (only an error is returned). -/
theorem C3_too_few_arguments_error_no_partial_state (proc : Process) (ins : Instruction)
    (r0 r1 : Nat) (ptr : ObjectPointer) (blk : Block)
    (h0 : ins.arg 0 = .ok r0) (h1 : ins.arg 1 = .ok r1)
    (hreg : proc.get_register r1 = .ok ptr) (hblk : ptr.block_value = .ok blk)
    (hwf : blk.code.required_arguments ≤ blk.code.arguments) :
    (ins.arguments.length - 2 < blk.code.required_arguments →
      run_block proc ins =
        (proc.advance_line ins.line,
         .error (too_few_arguments_message blk.code.name blk.code.required_arguments
           (ins.arguments.length - 2)))) ∧
    ((ins.arguments.length - 2 < blk.code.required_arguments ∨
      ins.arguments.length - 2 > blk.code.arguments) →
      (run_block proc ins).1.stack = proc.stack ∧
      (run_block proc ins).1.registers = proc.registers ∧
      (run_block proc ins).1.bindings = proc.bindings ∧
      ∃ e, (run_block proc ins).2 = Except.error e) := by
  rw [run_block_eq proc ins r0 r1 ptr blk h0 h1 hreg hblk]
  constructor
  · intro hfew
    have hnm : ¬(ins.arguments.length - 2 > blk.code.arguments) :=
      not_lt.mpr (le_of_lt (lt_of_lt_of_le hfew hwf))
    rw [if_neg hnm, if_pos hfew]
  · intro hor
    by_cases hm : ins.arguments.length - 2 > blk.code.arguments
    · rw [if_pos hm]
      exact ⟨rfl, rfl, rfl, _, rfl⟩
    · have hfew : ins.arguments.length - 2 < blk.code.required_arguments :=
        hor.resolve_right hm
      rw [if_neg hm, if_pos hfew]
      exact ⟨rfl, rfl, rfl, _, rfl⟩

/-- C3 witness: a block requiring two arguments invoked with one fails
with the "too few arguments" error and leaves the call stack unchanged. -/
theorem C3_too_few_arguments_error_no_partial_state_witness :
    run_block w3proc w3ins =
      (w3proc.advance_line w3ins.line,
       .error (too_few_arguments_message w3block.code.name
         w3block.code.required_arguments (w3ins.arguments.length - 2))) ∧
    (run_block w3proc w3ins).1.stack = w3proc.stack := by
  obtain ⟨h1, h2⟩ :=
    C3_too_few_arguments_error_no_partial_state w3proc w3ins 0 1 (.block w3block)
      w3block rfl rfl rfl rfl (by decide)
  exact ⟨h1 (by decide), (h2 (Or.inl (by decide))).1⟩

/-- C9: run_block records the instruction's line on the process before
validating arity, so an invocation that fails arity validation (too few
or too many arguments) returns with the process line set to the
instruction's line even though the call stack and registers are
untouched. -/
theorem C9_line_advanced_even_on_arity_error (proc : Process) (ins : Instruction)
    (r0 r1 : Nat) (ptr : ObjectPointer) (blk : Block)
    (h0 : ins.arg 0 = .ok r0) (h1 : ins.arg 1 = .ok r1)
    (hreg : proc.get_register r1 = .ok ptr) (hblk : ptr.block_value = .ok blk)
    (hfail : ins.arguments.length - 2 < blk.code.required_arguments ∨
      ins.arguments.length - 2 > blk.code.arguments) :
    (run_block proc ins).1.line = ins.line ∧
    (run_block proc ins).1.stack = proc.stack ∧
    (run_block proc ins).1.registers = proc.registers ∧
    ∃ e, (run_block proc ins).2 = Except.error e := by
  rw [run_block_eq proc ins r0 r1 ptr blk h0 h1 hreg hblk]
  by_cases hm : ins.arguments.length - 2 > blk.code.arguments
  · rw [if_pos hm]
    exact ⟨rfl, rfl, rfl, _, rfl⟩
  · have hfew : ins.arguments.length - 2 < blk.code.required_arguments :=
      hfail.resolve_right hm
    rw [if_neg hm, if_pos hfew]
    exact ⟨rfl, rfl, rfl, _, rfl⟩

/-- C9 witness: the rest block invoked with one excess argument fails,
yet the process line is the instruction's line 4. -/
theorem C9_line_advanced_even_on_arity_error_witness :
    (run_block c1proc c1ins).1.line = c1ins.line ∧
    (run_block c1proc c1ins).1.stack = c1proc.stack ∧
    (∃ e, (run_block c1proc c1ins).2 = Except.error e) := by
  obtain ⟨h1, h2, _, h4⟩ :=
    C9_line_advanced_even_on_arity_error c1proc c1ins 0 1 (.block c1block) c1block
      rfl rfl rfl rfl (Or.inr (by decide))
  exact ⟨h1, h2, h4⟩

/-- C10: on a successful run_block the pushed context's binding is the
very binding reference captured by the Block, the argument values are
appended onto that shared binding's existing locals, and a second
successful invocation of the same Block value accumulates its argument
values onto the same shared binding. -/
theorem C10_shared_binding_accumulates (proc : Process) (ins : Instruction)
    (r0 r1 : Nat) (ptr : ObjectPointer) (blk : Block) (vals : List ObjectPointer)
    (h0 : ins.arg 0 = .ok r0) (h1 : ins.arg 1 = .ok r1)
    (hreg : proc.get_register r1 = .ok ptr) (hblk : ptr.block_value = .ok blk)
    (hmany : ¬(ins.arguments.length - 2 > blk.code.arguments))
    (hfew : ¬(ins.arguments.length - 2 < blk.code.required_arguments))
    (hbid : blk.binding < proc.bindings.length)
    (hvals : get_arg_values proc ins 2 (ins.arguments.length - 2) = .ok vals) :
    (run_block proc ins).2 = .ok Action.EnterContext ∧
    (run_block proc ins).1.stack.head? =
      some (ExecutionContext.with_binding blk.binding blk.code (some r0)) ∧
    (run_block proc ins).1.binding_locals blk.binding =
      proc.binding_locals blk.binding ++ vals ∧
    (run_block (run_block proc ins).1 ins).2 = .ok Action.EnterContext ∧
    (run_block (run_block proc ins).1 ins).1.binding_locals blk.binding =
      proc.binding_locals blk.binding ++ vals ++ vals := by
  obtain ⟨s1, s2, s3, _, s5, s6, _⟩ :=
    run_block_success_spec proc ins r0 r1 ptr blk vals h0 h1 hreg hblk
      hmany hfew hbid hvals
  have hreg1 : (run_block proc ins).1.get_register r1 = .ok ptr := by
    rw [get_register_congr proc (run_block proc ins).1 s3]
    exact hreg
  have hbid1 : blk.binding < (run_block proc ins).1.bindings.length := by
    rw [s5]
    exact hbid
  have hvals1 : get_arg_values (run_block proc ins).1 ins 2
      (ins.arguments.length - 2) = .ok vals := by
    rw [get_arg_values_congr proc (run_block proc ins).1 ins s3]
    exact hvals
  obtain ⟨t1, _, _, _, _, t6, _⟩ :=
    run_block_success_spec (run_block proc ins).1 ins r0 r1 ptr blk vals h0 h1
      hreg1 hblk hmany hfew hbid1 hvals1
  refine ⟨s1, ?_, s6, t1, ?_⟩
  · rw [s2]
    rfl
  · rw [t6, s6]

/-- C10 witness: invoking the same concrete block twice with arguments
(obj 7, obj 8) leaves the shared binding holding both argument lists. -/
theorem C10_shared_binding_accumulates_witness :
    (run_block w2proc w2ins).2 = .ok Action.EnterContext ∧
    (run_block (run_block w2proc w2ins).1 w2ins).1.binding_locals 0 =
      [.obj 7, .obj 8, .obj 7, .obj 8] := by
  obtain ⟨h1, _, _, _, h5⟩ :=
    C10_shared_binding_accumulates w2proc w2ins 0 1 (.block w2block) w2block
      [.obj 7, .obj 8] rfl rfl rfl rfl (by decide) (by decide) (by decide) rfl
  exact ⟨h1, h5⟩

/-- C8: for every parse_file execution whose operand lookups succeed: when
the registry's get_or_set returns a CompiledCode, the instruction writes a
Block pairing that code with a freshly allocated empty Binding to the
destination register (leaving every other register unchanged) and returns
Action.None; when get_or_set fails, the instruction surfaces the LoadError
and the whole process — in particular the destination register — is left
unchanged. -/
theorem C8_parse_file_success_or_load_error (m : Machine) (proc : Process)
    (ins : Instruction) (r0 r1 : Nat) (ptr : ObjectPointer) (path : String)
    (h0 : ins.arg 0 = .ok r0) (h1 : ins.arg 1 = .ok r1)
    (hreg : proc.get_register r1 = .ok ptr) (hpath : ptr.string_value = .ok path) :
    (∀ registry2 code, m.file_registry.get_or_set path = (registry2, .ok code) →
      (parse_file m proc ins).2 = .ok Action.None ∧
      (parse_file m proc ins).1.1.file_registry = registry2 ∧
      (parse_file m proc ins).1.2.registers r0 =
        some (.block (Block.new code proc.bindings.length 0)) ∧
      (parse_file m proc ins).1.2.binding_locals proc.bindings.length = [] ∧
      (∀ n, n ≠ r0 → (parse_file m proc ins).1.2.registers n = proc.registers n)) ∧
    (∀ registry2 e, m.file_registry.get_or_set path = (registry2, .error e) →
      parse_file m proc ins = ((⟨registry2⟩, proc), .error e)) := by
  unfold parse_file
  simp only [h0, h1, hreg, hpath]
  constructor
  · intro registry2 code hget
    rw [hget]
    refine ⟨rfl, rfl, ?_, ?_, ?_⟩
    · simp [Process.set_register, Process.new_binding]
    · simp [Process.binding_locals, Process.set_register, Process.new_binding,
        get?_append_length]
    · intro n hn
      simp [Process.set_register, Process.new_binding, hn]
  · intro registry2 e hget
    rw [hget]

/-- C8 witness: a registry that parses "a.inko" successfully yields a
Block over a fresh empty binding in register 0; a registry whose parse
routine fails surfaces the LoadError and leaves the process unchanged. -/
theorem C8_parse_file_success_or_load_error_witness :
    (parse_file w8machine w8proc w8ins).2 = .ok Action.None ∧
    (parse_file w8machine w8proc w8ins).1.2.registers 0 =
      some (.block (Block.new w8code 0 0)) ∧
    (parse_file w8machine w8proc w8ins).1.2.binding_locals 0 = [] ∧
    parse_file w8failMachine w8proc w8ins =
      ((⟨w8failRegistry⟩, w8proc), .error "LoadError") := by
  obtain ⟨hsucc, _⟩ :=
    C8_parse_file_success_or_load_error w8machine w8proc w8ins 0 1 (.str "a.inko")
      "a.inko" rfl rfl rfl rfl
  obtain ⟨a1, _, a3, a4, _⟩ :=
    hsucc ⟨[("a.inko", w8code)], fun _ => .ok w8code⟩ w8code rfl
  obtain ⟨_, hfail2⟩ :=
    C8_parse_file_success_or_load_error w8failMachine w8proc w8ins 0 1 (.str "a.inko")
      "a.inko" rfl rfl rfl rfl
  exact ⟨a1, a3, a4, hfail2 w8failRegistry "LoadError" rfl⟩

end Inko
